import Mathlib

/-!
# chi-middleware/proxy: trusted-proxy options

A shallow embedding of `options.go` (package `proxy`) together with the parts of
Go's standard package `net` that the options code calls (`net.IP`, `net.IPNet`,
`net.ParseIP`, `net.ParseCIDR`).

Conventions of the embedding:

* a Go `[]byte` address is a list of bytes, every byte a natural number below 256;
  the nil slice is kept apart from the slices that hold bytes, because
  `isTrustedProxy` tests `ip == nil`;
* a Go `string` is read as its list of characters; every character the parsers
  look for is ASCII, so bytes and characters agree wherever a parser accepts;
* the builder methods of `*ForwardedHeadersOptions` mutate the receiver and return
  it; here each one is a function from the options before the call to the options
  after the call;
* a `*net.IPNet` held in `TrustedNetworks` is the network it points to:
  `AddTrustedNetwork`, the only method that appends to the list, returns early on
  a nil pointer.
-/

namespace Proxy

set_option autoImplicit false

/-! ## Package `net`: addresses -/

/-- Go `net.IP`, a byte slice: `IP.nil` is the nil slice, `IP.bytes bs` a non-nil
slice holding the bytes `bs`. -/
inductive IP where
  | nil
  | bytes (bs : List Nat)
  deriving DecidableEq, Repr

/-- Go `net.IPMask`, a byte slice of which only length and elements are used. -/
abbrev IPMask := List Nat

/-- Go `net.IPv4len`. -/
def IPv4len : Nat := 4

/-- Go `net.IPv6len`. -/
def IPv6len : Nat := 16

/-- Go `v4InV6Prefix`: the twelve bytes that precede an IPv4 address in its
16-byte form. -/
def v4InV6Prefix : List Nat := [0, 0, 0, 0, 0, 0, 0, 0, 0, 0, 0xff, 0xff]

/-- The elements of a slice (none for the nil slice). -/
def IP.toList : IP → List Nat
  | IP.nil => []
  | IP.bytes bs => bs

/-- Go `len(ip)`. -/
def IP.len (ip : IP) : Nat := ip.toList.length

/-- Go `net.IPv4(a, b, c, d)`: the 16-byte form of the IPv4 address `a.b.c.d`. -/
def IPv4 (a b c d : Nat) : IP := IP.bytes (v4InV6Prefix ++ [a, b, c, d])

/-- Go `isZeros`. -/
def isZeros (p : List Nat) : Bool := p.all (fun b => b == 0)

/-- Go `allFF`. -/
def allFF (b : List Nat) : Bool := b.all (fun c => c == 0xff)

/-- Go `IP.To4`: the 4-byte form of an IPv4 address, nil for anything else. -/
def IP.To4 (ip : IP) : IP :=
  if ip.len == IPv4len then ip
  else if ip.len == IPv6len && isZeros (ip.toList.take 10)
      && ip.toList.getD 10 0 == 0xff && ip.toList.getD 11 0 == 0xff then
    IP.bytes ((ip.toList.drop 12).take 4)
  else IP.nil

/-- Go `IP.Equal`: equality of addresses, an IPv4 address and its 16-byte form
being equal. -/
def IP.Equal (ip x : IP) : Bool :=
  if ip.len == x.len then ip.toList == x.toList
  else if ip.len == IPv4len && x.len == IPv6len then
    x.toList.take 12 == v4InV6Prefix && ip.toList == x.toList.drop 12
  else if ip.len == IPv6len && x.len == IPv4len then
    ip.toList.take 12 == v4InV6Prefix && ip.toList.drop 12 == x.toList
  else false

/-- Go `IP.Mask`: the address masked byte by byte, nil when the lengths do not fit. -/
def IP.Mask (ip : IP) (mask : IPMask) : IP :=
  let mask := if mask.length == IPv6len && ip.len == IPv4len && allFF (mask.take 12)
    then mask.drop 12 else mask
  let bs := if mask.length == IPv4len && ip.len == IPv6len
      && ip.toList.take 12 == v4InV6Prefix
    then ip.toList.drop 12 else ip.toList
  let n := bs.length
  if n != mask.length then IP.nil
  else IP.bytes ((List.range n).map (fun i => bs.getD i 0 &&& mask.getD i 0))

/-- Go `net.IPNet`: a network number and its mask. -/
structure IPNet where
  IP : IP
  Mask : IPMask
  deriving DecidableEq, Repr

/-- Go `networkNumberAndMask`: network number and mask brought to one length,
both nil when the network is malformed. -/
def networkNumberAndMask (n : IPNet) : IP × IPMask :=
  let ip := if n.IP.To4 != IP.nil then n.IP.To4 else n.IP
  if n.IP.To4 == IP.nil && ip.len != IPv6len then (IP.nil, [])
  else
    let m := n.Mask
    if m.length == IPv4len then
      if ip.len != IPv4len then (IP.nil, []) else (ip, m)
    else if m.length == IPv6len then
      if ip.len == IPv4len then (ip, m.drop 12) else (ip, m)
    else (IP.nil, [])

/-- Go `IPNet.Contains`: whether the network includes the address. -/
def IPNet.Contains (n : IPNet) (ip : Proxy.IP) : Bool :=
  let nn := (networkNumberAndMask n).1
  let m := (networkNumberAndMask n).2
  let ip := if ip.To4 != IP.nil then ip.To4 else ip
  let l := ip.len
  if l != nn.len then false
  else (List.range l).all (fun i =>
    (nn.toList.getD i 0 &&& m.getD i 0) == (ip.toList.getD i 0 &&& m.getD i 0))

/-- A network is well formed when its number and its mask are both 4 bytes or both
16 bytes long; `net.ParseCIDR` returns no other (`ParseCIDR_wellFormed`). -/
def IPNet.WellFormed (n : IPNet) : Prop :=
  (n.IP.len = IPv4len ∧ n.Mask.length = IPv4len) ∨
    (n.IP.len = IPv6len ∧ n.Mask.length = IPv6len)

/-! ## Package `net`: parsing

The parsers follow `ip.go` and `parse.go` of Go's package `net` as of Go 1.17 to
1.21 (`parseIPv4`, `parseIPv6`, `dtoi`, `xtoi`, `CIDRMask`, `ParseCIDR`). The
theorems on the options use of them only whether a text parses and, for a CIDR,
that the network returned is well formed. -/

/-- Go `big`, the bound at which `dtoi` and `xtoi` give up. -/
def big : Nat := 0xFFFFFF

/-- The loop of Go `dtoi`: `n` is the number read so far, `i` the count of digits
read. The result is the number, the count of characters used, and success. -/
def dtoiLoop : List Char → Nat → Nat → Nat × Nat × Bool
  | [], n, i => if i == 0 then (0, 0, false) else (n, i, true)
  | c :: cs, n, i =>
    if '0' ≤ c ∧ c ≤ '9' then
      if n * 10 + (c.toNat - '0'.toNat) ≥ big then (big, i, false)
      else dtoiLoop cs (n * 10 + (c.toNat - '0'.toNat)) (i + 1)
    else if i == 0 then (0, 0, false) else (n, i, true)

/-- Go `dtoi`: decimal to integer. -/
def dtoi (s : List Char) : Nat × Nat × Bool := dtoiLoop s 0 0

/-- The loop of Go `xtoi`. -/
def xtoiLoop : List Char → Nat → Nat → Nat × Nat × Bool
  | [], n, i => if i == 0 then (0, i, false) else (n, i, true)
  | c :: cs, n, i =>
    if '0' ≤ c ∧ c ≤ '9' then
      if n * 16 + (c.toNat - '0'.toNat) ≥ big then (0, i, false)
      else xtoiLoop cs (n * 16 + (c.toNat - '0'.toNat)) (i + 1)
    else if 'a' ≤ c ∧ c ≤ 'f' then
      if n * 16 + (c.toNat - 'a'.toNat + 10) ≥ big then (0, i, false)
      else xtoiLoop cs (n * 16 + (c.toNat - 'a'.toNat + 10)) (i + 1)
    else if 'A' ≤ c ∧ c ≤ 'F' then
      if n * 16 + (c.toNat - 'A'.toNat + 10) ≥ big then (0, i, false)
      else xtoiLoop cs (n * 16 + (c.toNat - 'A'.toNat + 10)) (i + 1)
    else if i == 0 then (0, i, false) else (n, i, true)

/-- Go `xtoi`: hexadecimal to integer. -/
def xtoi (s : List Char) : Nat × Nat × Bool := xtoiLoop s 0 0

/-- One round of the loop of Go `parseIPv4`, for the octet of index `i`: the octet
and the text left after it. -/
def parseIPv4Octet (i : Nat) (s : List Char) : Option (Nat × List Char) :=
  if s.length == 0 then none
  else if i > 0 && s.head? != some '.' then none
  else
    let s := if i > 0 then s.drop 1 else s
    if !(dtoi s).2.2 || (dtoi s).1 > 0xFF then none
    else if (dtoi s).2.1 > 1 && s.head? == some '0' then none
    else some ((dtoi s).1, s.drop (dtoi s).2.1)

/-- Go `parseIPv4`: four decimal octets separated by dots, no leading zeros, and
nothing after them; nil on any failure. -/
def parseIPv4 (s : List Char) : IP :=
  match parseIPv4Octet 0 s with
  | none => IP.nil
  | some (a, s) =>
    match parseIPv4Octet 1 s with
    | none => IP.nil
    | some (b, s) =>
      match parseIPv4Octet 2 s with
      | none => IP.nil
      | some (c, s) =>
        match parseIPv4Octet 3 s with
        | none => IP.nil
        | some (d, s) => if s.length != 0 then IP.nil else IPv4 a b c d

/-- The variables of the loop of Go `parseIPv6`: the 16 bytes being filled, the
position of the ellipsis (`-1` while there is none), the write position and the
text still to read. -/
structure V6State where
  ip : List Nat
  ellipsis : Int
  i : Nat
  s : List Char

/-- The loop of Go `parseIPv6`, `none` where the Go code returns nil. A round that
does not leave the loop advances `i` by two, so eight rounds are always enough. -/
def parseIPv6Loop : Nat → V6State → Option V6State
  | 0, st => some st
  | fuel + 1, st =>
    if ¬ st.i < IPv6len then some st
    else if !(xtoi st.s).2.2 || (xtoi st.s).1 > 0xFFFF then none
    else if (xtoi st.s).2.1 < st.s.length && st.s.getD (xtoi st.s).2.1 ' ' == '.' then
      if st.ellipsis < 0 && st.i != IPv6len - IPv4len then none
      else if st.i + IPv4len > IPv6len then none
      else if parseIPv4 st.s == IP.nil then none
      else
        some { ip := (((st.ip.set st.i ((parseIPv4 st.s).toList.getD 12 0)).set
                  (st.i + 1) ((parseIPv4 st.s).toList.getD 13 0)).set
                  (st.i + 2) ((parseIPv4 st.s).toList.getD 14 0)).set
                  (st.i + 3) ((parseIPv4 st.s).toList.getD 15 0)
               ellipsis := st.ellipsis
               i := st.i + IPv4len
               s := [] }
    else
      let ip := (st.ip.set st.i (((xtoi st.s).1 >>> 8) % 256)).set (st.i + 1)
        ((xtoi st.s).1 % 256)
      let i := st.i + 2
      let s := st.s.drop (xtoi st.s).2.1
      if s.length == 0 then some { ip := ip, ellipsis := st.ellipsis, i := i, s := s }
      else if s.head? != some ':' || s.length == 1 then none
      else
        let s := s.drop 1
        if s.head? == some ':' then
          if st.ellipsis ≥ 0 then none
          else if (s.drop 1).length == 0 then
            some { ip := ip, ellipsis := i, i := i, s := s.drop 1 }
          else parseIPv6Loop fuel { ip := ip, ellipsis := i, i := i, s := s.drop 1 }
        else parseIPv6Loop fuel { ip := ip, ellipsis := st.ellipsis, i := i, s := s }

/-- The end of Go `parseIPv6`: the bytes `ip[ellipsis..i)` move up by `n` places
and `n` zero bytes take their place. -/
def expandEllipsis (ip : List Nat) (ellipsis i n : Nat) : List Nat :=
  let moved := ((List.range' ellipsis (i - ellipsis)).reverse).foldl
    (fun p j => p.set (j + n) (p.getD j 0)) ip
  ((List.range' ellipsis n).reverse).foldl (fun p j => p.set j 0) moved

/-- Go `parseIPv6`: an IPv6 address in text form (hexadecimal groups, at most one
`::`, optionally a dotted IPv4 tail), as 16 bytes; nil on any failure. -/
def parseIPv6 (s : List Char) : IP :=
  let lead := s.length ≥ 2 && s.head? == some ':' && (s.drop 1).head? == some ':'
  if lead && (s.drop 2).length == 0 then IP.bytes (List.replicate IPv6len 0)
  else
    match parseIPv6Loop 8 { ip := List.replicate IPv6len 0
                            ellipsis := if lead then 0 else -1
                            i := 0
                            s := if lead then s.drop 2 else s } with
    | none => IP.nil
    | some st =>
      if st.s.length != 0 then IP.nil
      else if st.i < IPv6len then
        if st.ellipsis < 0 then IP.nil
        else IP.bytes (expandEllipsis st.ip st.ellipsis.toNat st.i (IPv6len - st.i))
      else if st.ellipsis ≥ 0 then IP.nil
      else IP.bytes st.ip

/-- Go `net.ParseIP`: the first dot or colon in the text decides between
`parseIPv4` and `parseIPv6`; a text with neither is not an address. -/
def ParseIP (s : String) : IP :=
  match s.toList.find? (fun c => c == '.' || c == ':') with
  | some '.' => parseIPv4 s.toList
  | some _ => parseIPv6 s.toList
  | none => IP.nil

/-- The loop of Go `CIDRMask`: `l` bytes of which the first `n` bits are set. -/
def cidrMaskLoop : Nat → Nat → List Nat
  | 0, _ => []
  | l + 1, n =>
    if n ≥ 8 then 0xff :: cidrMaskLoop l (n - 8)
    else (0xff - (0xff >>> n)) :: cidrMaskLoop l 0

/-- Go `net.CIDRMask`: the mask of `bits` bits with `ones` leading one bits, nil
(no bytes) when the arguments do not describe a mask. -/
def CIDRMask (ones bits : Nat) : IPMask :=
  if bits != 8 * IPv4len && bits != 8 * IPv6len then []
  else if ones > bits then []
  else cidrMaskLoop (bits / 8) ones

/-- Go `net.ParseCIDR`: address, slash, prefix length. On success the address and
the network (masked address and mask); `none` where Go returns an error, in
which case both results are nil. -/
def ParseCIDR (s : String) : Option (IP × IPNet) :=
  if s.toList.all (fun c => c != '/') then none
  else
    let addr := s.toList.takeWhile (fun c => c != '/')
    let mask := (s.toList.dropWhile (fun c => c != '/')).drop 1
    let iplen := if parseIPv4 addr == IP.nil then IPv6len else IPv4len
    let ip := if parseIPv4 addr == IP.nil then parseIPv6 addr else parseIPv4 addr
    if ip == IP.nil || !(dtoi mask).2.2 || (dtoi mask).2.1 != mask.length
        || (dtoi mask).1 > 8 * iplen then none
    else
      some (ip, { IP := ip.Mask (CIDRMask (dtoi mask).1 (8 * iplen))
                  Mask := CIDRMask (dtoi mask).1 (8 * iplen) })

/-! ## `options.go` -/

/-- Go `ForwardedHeadersOptions`. -/
structure ForwardedHeadersOptions where
  ForwardLimit : Int
  TrustedProxies : List IP
  TrustedNetworks : List IPNet
  deriving DecidableEq, Repr

/-- Go `defaultOptions`; `TrustedNetworks` is left out of the literal, hence nil. -/
def defaultOptions : ForwardedHeadersOptions :=
  { ForwardLimit := 1
    TrustedProxies := [IPv4 127 0 0 1]
    TrustedNetworks := [] }

/-- Go `NewForwardedHeadersOptions`. -/
def NewForwardedHeadersOptions : ForwardedHeadersOptions :=
  { ForwardLimit := defaultOptions.ForwardLimit
    TrustedProxies := defaultOptions.TrustedProxies
    TrustedNetworks := defaultOptions.TrustedNetworks }

/-- Go `WithForwardLimit`. -/
def WithForwardLimit (opts : ForwardedHeadersOptions) (limit : Int) :
    ForwardedHeadersOptions :=
  { opts with ForwardLimit := limit }

/-- Go `ClearTrustedProxies`. -/
def ClearTrustedProxies (opts : ForwardedHeadersOptions) : ForwardedHeadersOptions :=
  { opts with TrustedProxies := [] }

/-- Go `ClearTrustedNetworks`. -/
def ClearTrustedNetworks (opts : ForwardedHeadersOptions) : ForwardedHeadersOptions :=
  { opts with TrustedNetworks := [] }

/-- Go `AddTrustedProxy`: appends the parsed address, or returns the options as
they are when the text does not parse. -/
def AddTrustedProxy (opts : ForwardedHeadersOptions) (ip : String) :
    ForwardedHeadersOptions :=
  if ParseIP ip == IP.nil then opts
  else { opts with TrustedProxies := opts.TrustedProxies ++ [ParseIP ip] }

/-- Go `AddTrustedNetwork`: appends the parsed network, or returns the options as
they are when the text does not parse. -/
def AddTrustedNetwork (opts : ForwardedHeadersOptions) (cidr : String) :
    ForwardedHeadersOptions :=
  match ParseCIDR cidr with
  | none => opts
  | some (_, netmask) => { opts with TrustedNetworks := opts.TrustedNetworks ++ [netmask] }

/-- Go `isTrustedProxy`: false for the nil address, else true as soon as a trusted
proxy equals the address or a trusted network contains it. -/
def isTrustedProxy (opts : ForwardedHeadersOptions) (ip : IP) : Bool :=
  if ip == IP.nil then false
  else if opts.TrustedProxies.any (fun tip => tip.Equal ip) then true
  else if opts.TrustedNetworks.any (fun tnet => tnet.Contains ip) then true
  else false

/-! ## The resolver

`middleware.go`, which holds the middleware itself, is not among the sources; the
definitions of this section follow section 4.2 of the specification, read with
the examples of its section 8 and the tests of `middleware_test.go`, which pin
the resolved address of the requests they send. -/

/-- Modelled from the spec: a peer address (section 3), "an IP address plus an
opaque port token". The address is nil when the peer has no valid address. The
resolver of `middleware.go` that produces and consumes it is missing. -/
structure PeerAddress where
  ip : IP
  port : String
  deriving DecidableEq, Repr

/-- Modelled from the spec: the "synthetic/empty port marker" carried by an address
taken from a header (section 3); the tests of `middleware_test.go` expect `0`.
The code of `middleware.go` that writes it is missing. -/
def syntheticPort : String := "0"

/-- Modelled from the spec: "split it on commas" (section 4.2, step 2); the header
parsing of `middleware.go` is missing. -/
def splitCommas : List Char → List (List Char)
  | [] => [[]]
  | c :: cs =>
    if c == ',' then [] :: splitCommas cs
    else
      match splitCommas cs with
      | [] => [[c]]
      | f :: fs => (c :: f) :: fs

/-- Modelled from the spec: "trim whitespace from each entry" (section 4.2, step 2);
the header parsing of `middleware.go` is missing. -/
def trimSpace (cs : List Char) : List Char :=
  ((cs.dropWhile Char.isWhitespace).reverse.dropWhile Char.isWhitespace).reverse

/-- Modelled from the spec: the forwarding chain of section 4.2, step 2, missing
with `middleware.go`: the entries of `X-Forwarded-For` in header order when that
header is present, else the single entry of `X-Real-IP` when that one is present,
else no entry. An entry that does not parse is nil and keeps its place ("still
occupy a position for hop-counting purposes"). -/
def forwardedChain (xff xri : Option String) : List IP :=
  match xff, xri with
  | some h, _ => (splitCommas h.toList).map (fun e => ParseIP (String.mk (trimSpace e)))
  | none, some h => [ParseIP (String.mk (trimSpace h.toList))]
  | none, none => []

/-- Modelled from the spec: the walk of section 4.2, step 3, missing with
`middleware.go`. The entries come rightmost first; `consumed` is the number of
entries consumed so far and `cur` the last well-formed entry consumed (nil while
there is none). An entry is consumed while the number consumed is below
`ForwardLimit`, or without a cap when `ForwardLimit` is 0. Step 3 also words a
trust condition for every hop; the examples of section 8 and the tests
`TestXForwardForMultipleIP` and `TestXForwardForMultipleIPWithLimit` of
`middleware_test.go` resolve past entries that the default lists do not trust, so
the trust decision is taken once, on the direct peer, in `resolve`. -/
def walk (opts : ForwardedHeadersOptions) : List IP → Nat → IP → IP
  | [], _, cur => cur
  | e :: rest, consumed, cur =>
    if opts.ForwardLimit == 0 || (consumed : Int) < opts.ForwardLimit then
      walk opts rest (consumed + 1) (if e == IP.nil then cur else e)
    else cur

/-- Modelled from the spec: the resolver of section 4.2, missing with
`middleware.go`. An untrusted peer is returned unchanged and no header is
consulted (step 1); for a trusted peer the chain is walked from its right end
(steps 2 and 3) and the last entry consumed is the resolved address, with the
synthetic port; when no entry was consumed the peer address stays. -/
def resolve (opts : ForwardedHeadersOptions) (peer : PeerAddress)
    (xff xri : Option String) : PeerAddress :=
  if !isTrustedProxy opts peer.ip then peer
  else
    match walk opts (forwardedChain xff xri).reverse 0 IP.nil with
    | IP.nil => peer
    | IP.bytes bs => { ip := IP.bytes bs, port := syntheticPort }

/-! ## The trust decision -/

/-- An address equals itself under `IP.Equal`, whatever its length. -/
theorem IP.Equal_self (ip : IP) : ip.Equal ip = true := by
  simp [IP.Equal]

/-- The trust decision unfolded: a non-nil address is trusted when a trusted proxy
equals it or a trusted network contains it. -/
theorem isTrustedProxy_eq_true_iff (opts : ForwardedHeadersOptions) (ip : IP) :
    isTrustedProxy opts ip = true ↔
      ip ≠ IP.nil ∧ ((∃ tip ∈ opts.TrustedProxies, tip.Equal ip = true) ∨
        ∃ tnet ∈ opts.TrustedNetworks, tnet.Contains ip = true) := by
  by_cases hnil : ip = IP.nil
  · simp [isTrustedProxy, hnil]
  · have e : isTrustedProxy opts ip =
        (opts.TrustedProxies.any (fun tip => tip.Equal ip)
          || opts.TrustedNetworks.any (fun tnet => tnet.Contains ip)) := by
      unfold isTrustedProxy
      cases opts.TrustedProxies.any (fun tip => tip.Equal ip) <;>
        cases opts.TrustedNetworks.any (fun tnet => tnet.Contains ip) <;> simp [hnil]
    rw [e, Bool.or_eq_true, List.any_eq_true, List.any_eq_true]
    simp [hnil]

/-- The nil address is never trusted. -/
theorem isTrustedProxy_nil_eq_false (opts : ForwardedHeadersOptions) :
    isTrustedProxy opts IP.nil = false := by
  simp [isTrustedProxy]

/-- The text `text` is left as it is by `AddTrustedProxy` when it does not parse. -/
theorem AddTrustedProxy_of_nil (opts : ForwardedHeadersOptions) (text : String)
    (h : ParseIP text = IP.nil) : AddTrustedProxy opts text = opts := by
  simp [AddTrustedProxy, h]

/-- A text that parses is appended by `AddTrustedProxy` to the trusted proxies. -/
theorem AddTrustedProxy_of_ne_nil (opts : ForwardedHeadersOptions) (text : String)
    (h : ParseIP text ≠ IP.nil) :
    AddTrustedProxy opts text =
      { opts with TrustedProxies := opts.TrustedProxies ++ [ParseIP text] } := by
  simp [AddTrustedProxy, h]

/-- A text that is no CIDR is left as it is by `AddTrustedNetwork`. -/
theorem AddTrustedNetwork_of_none (opts : ForwardedHeadersOptions) (text : String)
    (h : ParseCIDR text = none) : AddTrustedNetwork opts text = opts := by
  simp [AddTrustedNetwork, h]

/-- A CIDR is appended by `AddTrustedNetwork` to the trusted networks. -/
theorem AddTrustedNetwork_of_some (opts : ForwardedHeadersOptions) (text : String)
    (ip : IP) (n : IPNet) (h : ParseCIDR text = some (ip, n)) :
    AddTrustedNetwork opts text =
      { opts with TrustedNetworks := opts.TrustedNetworks ++ [n] } := by
  simp [AddTrustedNetwork, h]

/-- The default options trust the two forms of 127.0.0.1, the four bytes and the
sixteen bytes, and nothing else. -/
theorem isTrustedProxy_default_iff (ip : IP) :
    isTrustedProxy NewForwardedHeadersOptions ip = true ↔
      ip = IP.bytes [127, 0, 0, 1] ∨ ip = IPv4 127 0 0 1 := by
  rw [isTrustedProxy_eq_true_iff]
  cases ip with
  | nil => simp [IPv4]
  | bytes bs =>
    simp only [NewForwardedHeadersOptions, defaultOptions, List.mem_singleton, exists_eq_left,
      List.not_mem_nil, false_and, exists_false, or_false, ne_eq, not_false_eq_true, true_and,
      IP.bytes.injEq, reduceCtorEq]
    constructor
    · intro h
      unfold IP.Equal at h
      simp only [IPv4, IP.len, IP.toList, v4InV6Prefix, IPv4len, IPv6len, List.length_append,
        List.length_cons, List.length_nil] at h
      by_cases h16 : bs.length = 16
      · right
        simp [h16] at h
        simp [IPv4, v4InV6Prefix, h]
      · by_cases h4 : bs.length = 4
        · left
          simp [h4] at h
          exact h.symm
        · have h16b : ¬ 16 = bs.length := fun e => h16 e.symm
          simp [h16b, h4] at h
    · rintro (h | h)
      · subst h
        decide
      · have : bs = v4InV6Prefix ++ [127, 0, 0, 1] := by
          simpa [IPv4] using h
        subst this
        decide

/-! ## What the parsers return -/

/-- The fuel of the `parseIPv6` loop never runs out: once `fuel` rounds can carry
`i` to the end of the 16 bytes, more fuel changes nothing. `parseIPv6` starts at
`i = 0` with 8 rounds. -/
theorem parseIPv6Loop_fuel (fuel k : Nat) (st : V6State)
    (h : IPv6len ≤ st.i + 2 * fuel) :
    parseIPv6Loop (fuel + k) st = parseIPv6Loop fuel st := by
  induction fuel generalizing st with
  | zero =>
    have hi : ¬ st.i < IPv6len := by omega
    cases k with
    | zero => rfl
    | succ k => simp [parseIPv6Loop, hi]
  | succ fuel ih =>
    have e : fuel + 1 + k = (fuel + k) + 1 := by omega
    rw [e]
    simp only [parseIPv6Loop]
    split_ifs <;> first
      | rfl
      | (apply ih; simp only; omega)

/-- The loop of `CIDRMask` writes `l` bytes. -/
theorem cidrMaskLoop_length (l n : Nat) : (cidrMaskLoop l n).length = l := by
  induction l generalizing n with
  | zero => rfl
  | succ l ih =>
    unfold cidrMaskLoop
    split_ifs <;> simp [ih]

/-- A mask of `8 * iplen` bits is `iplen` bytes long. -/
theorem CIDRMask_length (ones iplen : Nat) (hlen : iplen = IPv4len ∨ iplen = IPv6len)
    (h : ¬ ones > 8 * iplen) : (CIDRMask ones (8 * iplen)).length = iplen := by
  unfold CIDRMask
  rcases hlen with e | e <;> subst e <;> simp only [IPv4len, IPv6len] at h ⊢ <;>
    simp [h, cidrMaskLoop_length]

/-- What `parseIPv4` returns is nil or the 16-byte form of an IPv4 address. -/
theorem parseIPv4_nil_or_IPv4 (s : List Char) :
    parseIPv4 s = IP.nil ∨ ∃ a b c d, parseIPv4 s = IPv4 a b c d := by
  unfold parseIPv4
  split
  · exact Or.inl rfl
  · split
    · exact Or.inl rfl
    · split
      · exact Or.inl rfl
      · split
        · exact Or.inl rfl
        · split_ifs
          · exact Or.inl rfl
          · exact Or.inr ⟨_, _, _, _, rfl⟩

/-- The loop of `parseIPv6` keeps the 16 bytes it fills at 16. -/
theorem parseIPv6Loop_length (fuel : Nat) (st st2 : V6State)
    (hlen : st.ip.length = IPv6len) (h : parseIPv6Loop fuel st = some st2) :
    st2.ip.length = IPv6len := by
  induction fuel generalizing st with
  | zero =>
    simp only [parseIPv6Loop, Option.some.injEq] at h
    rw [← h]; exact hlen
  | succ fuel ih =>
    simp only [parseIPv6Loop] at h
    split_ifs at h
    all_goals first
      | (simp only [Option.some.injEq] at h; rw [← h]; simp [hlen])
      | (refine ih _ ?_ h; simp [hlen])

/-- Writing into a list place by place leaves its length alone. -/
theorem foldl_set_length (f : List Nat → Nat → Nat × Nat) (js : List Nat) (p : List Nat) :
    (js.foldl (fun p j => p.set (f p j).1 (f p j).2) p).length = p.length := by
  induction js generalizing p with
  | nil => rfl
  | cons j js ih => simp [List.foldl_cons, ih]

/-- Expanding the ellipsis leaves the length of the address alone. -/
theorem expandEllipsis_length (ip : List Nat) (e i n : Nat) :
    (expandEllipsis ip e i n).length = ip.length := by
  unfold expandEllipsis
  have h1 := foldl_set_length (fun p j => (j + n, p.getD j 0))
  have h2 := foldl_set_length (fun _ j => (j, 0))
  simp only at h1 h2
  rw [h2, h1]

/-- What `parseIPv6` returns is nil or 16 bytes long. -/
theorem parseIPv6_nil_or_len (s : List Char) :
    parseIPv6 s = IP.nil ∨ (parseIPv6 s).len = IPv6len := by
  unfold parseIPv6
  simp only
  split_ifs
  · right; simp [IP.len, IP.toList]
  all_goals
    split
    · exact Or.inl rfl
    · rename_i st hst
      have hl := parseIPv6Loop_length _ _ st (by simp) hst
      split_ifs <;> first
        | exact Or.inl rfl
        | (right; simp [IP.len, IP.toList, expandEllipsis_length, hl])

/-- An IPv4 address under a 4-byte mask is 4 bytes long. -/
theorem IPv4_Mask_len (a b c d : Nat) (m : IPMask) (hm : m.length = IPv4len) :
    ((IPv4 a b c d).Mask m).len = IPv4len := by
  simp [IP.Mask, IPv4, IP.len, IP.toList, hm, IPv4len, IPv6len, v4InV6Prefix]

/-- A 16-byte address under a 16-byte mask is 16 bytes long. -/
theorem Mask_len_of_IPv6len (ip : IP) (m : IPMask) (hip : ip.len = IPv6len)
    (hm : m.length = IPv6len) : (ip.Mask m).len = IPv6len := by
  cases ip with
  | nil => simp [IP.len, IP.toList, IPv6len] at hip
  | bytes bs =>
    have hb : bs.length = 16 := by simpa [IP.len, IP.toList, IPv6len] using hip
    have hm2 : m.length = 16 := by simpa [IPv6len] using hm
    simp [IP.Mask, IP.len, IP.toList, hm2, hb, IPv4len, IPv6len]

/-- Every network that `ParseCIDR` returns is well formed. -/
theorem ParseCIDR_wellFormed (text : String) (ip : IP) (n : IPNet)
    (h : ParseCIDR text = some (ip, n)) : n.WellFormed := by
  unfold ParseCIDR at h
  simp only at h
  generalize text.toList.takeWhile (fun c => c != '/') = addr at h
  generalize (text.toList.dropWhile (fun c => c != '/')).drop 1 = mask at h
  split_ifs at h with h1 h4 h2 h2
  · simp only [Option.some.injEq, Prod.mk.injEq] at h
    obtain ⟨-, hn⟩ := h
    subst hn
    simp only [Bool.or_eq_true, not_or] at h2
    obtain ⟨⟨⟨hip, -⟩, -⟩, hle⟩ := h2
    have hle2 : ¬ (dtoi mask).1 > 8 * IPv6len := by simpa using hle
    have hip2 : parseIPv6 addr ≠ IP.nil := by simpa using hip
    have hm := CIDRMask_length (dtoi mask).1 IPv6len (Or.inr rfl) hle2
    right
    refine ⟨Mask_len_of_IPv6len _ _ ?_ hm, hm⟩
    rcases parseIPv6_nil_or_len addr with h6 | h6
    · exact absurd h6 hip2
    · exact h6
  · simp only [Option.some.injEq, Prod.mk.injEq] at h
    obtain ⟨-, hn⟩ := h
    subst hn
    simp only [Bool.or_eq_true, not_or] at h2
    obtain ⟨⟨⟨hip, -⟩, -⟩, hle⟩ := h2
    have hle2 : ¬ (dtoi mask).1 > 8 * IPv4len := by simpa using hle
    have hip2 : parseIPv4 addr ≠ IP.nil := by simpa using hip
    have hm := CIDRMask_length (dtoi mask).1 IPv4len (Or.inl rfl) hle2
    left
    rcases parseIPv4_nil_or_IPv4 addr with e | ⟨a, b, c, d, e⟩
    · exact absurd e hip2
    · rw [e]
      exact ⟨IPv4_Mask_len a b c d _ hm, hm⟩

/-- The nil address has no 4-byte form. -/
theorem To4_nil : IP.To4 IP.nil = IP.nil := by decide

/-- A well-formed network does not contain the nil address. -/
theorem Contains_nil_of_wellFormed (n : IPNet) (h : n.WellFormed) :
    n.Contains IP.nil = false := by
  have hnn : (networkNumberAndMask n).1.len = IPv4len ∨
      (networkNumberAndMask n).1.len = IPv6len := by
    unfold networkNumberAndMask
    rcases h with ⟨hi, hm⟩ | ⟨hi, hm⟩
    · have h4 : n.IP.To4 = n.IP := by simp [IP.To4, hi]
      have hne : n.IP ≠ IP.nil := by
        intro e; rw [e] at hi; simp [IP.len, IP.toList, IPv4len] at hi
      simp [h4, hne, hm, hi]
    · by_cases h4 : n.IP.To4 = IP.nil
      · simp [h4, hi, hm, IPv4len, IPv6len]
      · have hl : n.IP.To4.len = IPv4len := by
          unfold IP.To4 at h4 ⊢
          split_ifs at h4 ⊢ with c1 c2
          · simp [IPv4len, IPv6len, hi] at c1
          · have hi2 : n.IP.toList.length = 16 := hi
            show ((n.IP.toList.drop 12).take 4).length = 4
            simp [hi2]
          · exact absurd rfl h4
        simp [h4, hl, hm, IPv4len, IPv6len]
  have hlen0 : IP.len IP.nil = 0 := rfl
  unfold IPNet.Contains
  simp only [To4_nil]
  rcases hnn with e | e <;> simp [e, hlen0, IPv4len, IPv6len]

/-! ## The builders and the trust decision -/

/-- The trust decision looks at the two lists only through their members. -/
theorem isTrustedProxy_congr (o1 o2 : ForwardedHeadersOptions) (ip : IP)
    (hp : ∀ x, x ∈ o1.TrustedProxies ↔ x ∈ o2.TrustedProxies)
    (hn : ∀ x, x ∈ o1.TrustedNetworks ↔ x ∈ o2.TrustedNetworks) :
    isTrustedProxy o1 ip = isTrustedProxy o2 ip := by
  rw [Bool.eq_iff_iff, isTrustedProxy_eq_true_iff, isTrustedProxy_eq_true_iff]
  simp only [hp, hn]

/-- The trusted proxies after `AddTrustedProxy`: the parsed address is appended,
nothing when the text does not parse. -/
theorem AddTrustedProxy_TrustedProxies (opts : ForwardedHeadersOptions) (text : String) :
    (AddTrustedProxy opts text).TrustedProxies =
      opts.TrustedProxies ++ (if ParseIP text = IP.nil then [] else [ParseIP text]) := by
  by_cases h : ParseIP text = IP.nil
  · rw [AddTrustedProxy_of_nil opts text h]; simp [h]
  · rw [AddTrustedProxy_of_ne_nil opts text h]; simp [h]

/-- The trusted networks are left alone by `AddTrustedProxy`. -/
theorem AddTrustedProxy_TrustedNetworks (opts : ForwardedHeadersOptions) (text : String) :
    (AddTrustedProxy opts text).TrustedNetworks = opts.TrustedNetworks := by
  by_cases h : ParseIP text = IP.nil
  · rw [AddTrustedProxy_of_nil opts text h]
  · rw [AddTrustedProxy_of_ne_nil opts text h]

/-- The forward limit is left alone by `AddTrustedProxy`. -/
theorem AddTrustedProxy_ForwardLimit (opts : ForwardedHeadersOptions) (text : String) :
    (AddTrustedProxy opts text).ForwardLimit = opts.ForwardLimit := by
  by_cases h : ParseIP text = IP.nil
  · rw [AddTrustedProxy_of_nil opts text h]
  · rw [AddTrustedProxy_of_ne_nil opts text h]

/-- The trusted networks after `AddTrustedNetwork`: the parsed network is appended,
nothing when the text is no CIDR. -/
theorem AddTrustedNetwork_TrustedNetworks (opts : ForwardedHeadersOptions) (text : String) :
    (AddTrustedNetwork opts text).TrustedNetworks =
      opts.TrustedNetworks ++ ((ParseCIDR text).map Prod.snd).toList := by
  cases h : ParseCIDR text with
  | none => rw [AddTrustedNetwork_of_none opts text h]; simp
  | some p => rw [AddTrustedNetwork_of_some opts text p.1 p.2 h]; simp

/-- The trusted proxies are left alone by `AddTrustedNetwork`. -/
theorem AddTrustedNetwork_TrustedProxies (opts : ForwardedHeadersOptions) (text : String) :
    (AddTrustedNetwork opts text).TrustedProxies = opts.TrustedProxies := by
  cases h : ParseCIDR text with
  | none => rw [AddTrustedNetwork_of_none opts text h]
  | some p => rw [AddTrustedNetwork_of_some opts text p.1 p.2 h]

/-- The forward limit is left alone by `AddTrustedNetwork`. -/
theorem AddTrustedNetwork_ForwardLimit (opts : ForwardedHeadersOptions) (text : String) :
    (AddTrustedNetwork opts text).ForwardLimit = opts.ForwardLimit := by
  cases h : ParseCIDR text with
  | none => rw [AddTrustedNetwork_of_none opts text h]
  | some p => rw [AddTrustedNetwork_of_some opts text p.1 p.2 h]

/-- What `ParseIP` returns is nil or 16 bytes long. -/
theorem ParseIP_nil_or_len (s : String) : ParseIP s = IP.nil ∨ (ParseIP s).len = IPv6len := by
  unfold ParseIP
  split
  · rcases parseIPv4_nil_or_IPv4 s.toList with h | ⟨a, b, c, d, h⟩
    · exact Or.inl h
    · right; rw [h]; rfl
  · exact parseIPv6_nil_or_len s.toList
  · exact Or.inl rfl

/-- A 16-byte address does not equal the nil address. -/
theorem Equal_nil_of_len (a : IP) (h : a.len = IPv6len) : a.Equal IP.nil = false := by
  have h0 : IP.len IP.nil = 0 := rfl
  simp [IP.Equal, h, h0, IPv4len, IPv6len]

/-- An address that no entry equals and no network contains, once nil is set
apart: without trusted proxies the decision rests on the networks alone. -/
theorem isTrustedProxy_of_no_proxies (opts : ForwardedHeadersOptions) (ip : IP)
    (h : opts.TrustedProxies = []) :
    isTrustedProxy opts ip = true ↔
      ip ≠ IP.nil ∧ ∃ tnet ∈ opts.TrustedNetworks, tnet.Contains ip = true := by
  rw [isTrustedProxy_eq_true_iff, h]
  simp

/-- Without trusted networks the decision rests on the trusted proxies alone. -/
theorem isTrustedProxy_of_no_networks (opts : ForwardedHeadersOptions) (ip : IP)
    (h : opts.TrustedNetworks = []) :
    isTrustedProxy opts ip = true ↔
      ip ≠ IP.nil ∧ ∃ tip ∈ opts.TrustedProxies, tip.Equal ip = true := by
  rw [isTrustedProxy_eq_true_iff, h]
  simp

/-- An entry that holds bytes does not equal the nil address. -/
theorem Equal_nil_of_len_ne_zero (tip : IP) (h : tip.len ≠ 0) : tip.Equal IP.nil = false := by
  have h0 : IP.len IP.nil = 0 := rfl
  have h4 : ¬ (0 = IPv4len) := by decide
  have h16 : ¬ (0 = IPv6len) := by decide
  simp [IP.Equal, h, h0, h4, h16]

/-- The order of the two addresses does not matter to `IP.Equal`. -/
theorem IP.Equal_comm (a b : IP) : a.Equal b = b.Equal a := by
  have e1 : (a.toList == b.toList) = (b.toList == a.toList) := by
    rw [Bool.eq_iff_iff]
    simp only [beq_iff_eq]
    exact eq_comm
  have e2 : (a.toList == b.toList.drop 12) = (b.toList.drop 12 == a.toList) := by
    rw [Bool.eq_iff_iff]
    simp only [beq_iff_eq]
    exact eq_comm
  have e3 : (a.toList.drop 12 == b.toList) = (b.toList == a.toList.drop 12) := by
    rw [Bool.eq_iff_iff]
    simp only [beq_iff_eq]
    exact eq_comm
  have l4 : ¬ (IPv4len = IPv6len) := by decide
  have l6 : ¬ (IPv6len = IPv4len) := by decide
  unfold IP.Equal
  rw [e1, e2, e3]
  by_cases h : a.len = b.len
  · simp [h]
  · have h2 : ¬ b.len = a.len := fun e => h e.symm
    by_cases c1 : a.len = IPv4len
    · by_cases c2 : b.len = IPv6len
      · simp [c1, c2, l4, l6]
      · have h3 : ¬ IPv4len = b.len := fun e => h (c1.trans e)
        have h4 : ¬ b.len = IPv4len := fun e => h (c1.trans e.symm)
        simp [c1, c2, h3, h4, l4, l6]
    · by_cases c3 : a.len = IPv6len
      · by_cases c4 : b.len = IPv4len
        · simp [c3, c4, l4, l6]
        · have h3 : ¬ IPv6len = b.len := fun e => h (c3.trans e)
          have h4 : ¬ b.len = IPv6len := fun e => h (c3.trans e.symm)
          simp [c3, c4, h3, h4, l4, l6]
      · simp [c1, c3, h, h2]

/-! ## The walk over the forwarding chain -/

/-- The walk reads the options through `ForwardLimit` alone. -/
theorem walk_congr (opts opts2 : ForwardedHeadersOptions)
    (hlim : opts2.ForwardLimit = opts.ForwardLimit) :
    ∀ (es : List IP) (consumed : Nat) (cur : IP),
      walk opts2 es consumed cur = walk opts es consumed cur := by
  intro es
  induction es with
  | nil => intro consumed cur; rfl
  | cons e rest ih =>
    intro consumed cur
    rw [walk, walk, hlim, ih]

/-- Once a limit `N ≥ 1` is reached no further entry is consumed. -/
theorem walk_at_limit (opts : ForwardedHeadersOptions) (N : Nat)
    (hlim : opts.ForwardLimit = (N : Int)) (hN : 1 ≤ N) (es : List IP) (consumed : Nat)
    (cur : IP) (hc : N ≤ consumed) : walk opts es consumed cur = cur := by
  cases es with
  | nil => rfl
  | cons e rest =>
    have h0 : ¬ (N : Int) = 0 := by omega
    have h1 : ¬ (consumed : Int) < (N : Int) := by omega
    simp [walk, hlim, h0, h1]

/-- With a limit `N ≥ 1` and only well-formed entries, of which there are enough,
the walk ends on the entry that brings the number consumed to `N`. -/
theorem walk_nth (opts : ForwardedHeadersOptions) (N : Nat)
    (hlim : opts.ForwardLimit = (N : Int)) (hN : 1 ≤ N) :
    ∀ (es : List IP) (consumed : Nat) (cur : IP), (∀ e ∈ es, e ≠ IP.nil) →
      consumed < N → N - consumed ≤ es.length →
      es[N - consumed - 1]? = some (walk opts es consumed cur) := by
  intro es
  induction es with
  | nil =>
    intro consumed cur _ hc hk
    simp only [List.length_nil] at hk
    omega
  | cons e rest ih =>
    intro consumed cur hwf hc hk
    have he : e ≠ IP.nil := hwf e (List.mem_cons_self _ _)
    have hcond : (opts.ForwardLimit == 0 || decide ((consumed : Int) < opts.ForwardLimit))
        = true := by
      have h1 : (consumed : Int) < (N : Int) := by omega
      simp [hlim, h1]
    rw [walk, if_pos hcond]
    have hcur : (if e == IP.nil then cur else e) = e := by simp [he]
    rw [hcur]
    by_cases hlast : consumed + 1 = N
    · rw [walk_at_limit opts N hlim hN rest (consumed + 1) e (by omega)]
      have hz : N - consumed - 1 = 0 := by omega
      rw [hz]
      simp
    · have hidx : N - consumed - 1 = (N - (consumed + 1) - 1) + 1 := by omega
      rw [hidx, List.getElem?_cons_succ]
      apply ih (consumed + 1) e (fun x hx => hwf x (List.mem_cons_of_mem _ hx)) (by omega)
      simp only [List.length_cons] at hk
      omega

/-- The resolved address of a trusted peer whose walk ends on a well-formed entry
is that entry, with the synthetic port. -/
theorem resolve_of_walk (opts : ForwardedHeadersOptions) (peer : PeerAddress)
    (xff xri : Option String) (a : IP) (hpeer : isTrustedProxy opts peer.ip = true)
    (hw : walk opts (forwardedChain xff xri).reverse 0 IP.nil = a) (ha : a ≠ IP.nil) :
    resolve opts peer xff xri = { ip := a, port := syntheticPort } := by
  unfold resolve
  rw [hw]
  cases a with
  | nil => exact absurd rfl ha
  | bytes bs => simp [hpeer]

/-- The resolver on the single-hop tests of `middleware_test.go` (`TestXRealIP`,
`TestXForwardForIP`, `TestTrustedProxy`, `TestTrustedNetwork`): a trusted peer
with one header entry resolves to that entry with the synthetic port. -/
theorem resolve_single_hop_tests :
    resolve NewForwardedHeadersOptions { ip := ParseIP "127.0.0.1", port := "111" }
        none (some "100.100.100.100") =
      { ip := ParseIP "100.100.100.100", port := "0" } ∧
    resolve NewForwardedHeadersOptions { ip := ParseIP "127.0.0.1", port := "111" }
        (some "100.100.100.100") none =
      { ip := ParseIP "100.100.100.100", port := "0" } ∧
    resolve (AddTrustedProxy (ClearTrustedProxies NewForwardedHeadersOptions) "127.0.1.2")
        { ip := ParseIP "127.0.1.2", port := "111" } none (some "100.100.100.100") =
      { ip := ParseIP "100.100.100.100", port := "0" } ∧
    resolve (AddTrustedNetwork (ClearTrustedNetworks NewForwardedHeadersOptions)
          "127.0.1.0/24")
        { ip := ParseIP "127.0.1.2", port := "111" } none (some "100.100.100.100") =
      { ip := ParseIP "100.100.100.100", port := "0" } := by
  decide

/-! ## The claims -/

/-- C1. Spoofing defence: when the direct peer's IP is not trusted by
`isTrustedProxy`, the resolved address is the peer address unchanged, port
included, whatever the `X-Forwarded-For` and `X-Real-IP` headers hold; two requests
that differ only in those headers resolve to the same address. -/
theorem resolve_untrusted_peer_unchanged (opts : ForwardedHeadersOptions)
    (peer : PeerAddress) (xff xri xff2 xri2 : Option String)
    (h : isTrustedProxy opts peer.ip = false) :
    resolve opts peer xff xri = peer ∧
      resolve opts peer xff2 xri2 = resolve opts peer xff xri := by
  simp [resolve, h]

/-- C1 at the peer 127.0.1.2:111 with `X-Real-IP: 100.100.100.100` under the
default options. -/
theorem resolve_untrusted_peer_unchanged_witness :
    isTrustedProxy NewForwardedHeadersOptions (ParseIP "127.0.1.2") = false ∧
      (resolve NewForwardedHeadersOptions { ip := ParseIP "127.0.1.2", port := "111" }
          none (some "100.100.100.100") = { ip := ParseIP "127.0.1.2", port := "111" } ∧
        resolve NewForwardedHeadersOptions { ip := ParseIP "127.0.1.2", port := "111" }
          (some "8.8.8.8, 9.9.9.9") none =
        resolve NewForwardedHeadersOptions { ip := ParseIP "127.0.1.2", port := "111" }
          none (some "100.100.100.100")) :=
  ⟨by decide,
    resolve_untrusted_peer_unchanged NewForwardedHeadersOptions
      { ip := ParseIP "127.0.1.2", port := "111" } none (some "100.100.100.100")
      (some "8.8.8.8, 9.9.9.9") none (by decide)⟩

/-- C2. For a non-nil sender IP, `isTrustedProxy` is true exactly when the IP equals
some entry of `TrustedProxies` or some network of `TrustedNetworks` contains it.
The options hold no trust-all flag, so the condition that it is not set holds of
every options value. -/
theorem isTrustedProxy_iff_proxy_or_network (opts : ForwardedHeadersOptions) (ip : IP)
    (h : ip ≠ IP.nil) :
    isTrustedProxy opts ip = true ↔
      (∃ tip ∈ opts.TrustedProxies, tip.Equal ip = true) ∨
        ∃ tnet ∈ opts.TrustedNetworks, tnet.Contains ip = true := by
  rw [isTrustedProxy_eq_true_iff]
  simp [h]

/-- C2 at the default options and the address 127.0.0.1. -/
theorem isTrustedProxy_iff_proxy_or_network_witness :
    IPv4 127 0 0 1 ≠ IP.nil ∧
      (isTrustedProxy NewForwardedHeadersOptions (IPv4 127 0 0 1) = true ↔
        (∃ tip ∈ NewForwardedHeadersOptions.TrustedProxies,
            tip.Equal (IPv4 127 0 0 1) = true) ∨
          ∃ tnet ∈ NewForwardedHeadersOptions.TrustedNetworks,
            tnet.Contains (IPv4 127 0 0 1) = true) :=
  ⟨by decide,
    isTrustedProxy_iff_proxy_or_network NewForwardedHeadersOptions (IPv4 127 0 0 1)
      (by decide)⟩

/-- C3. Whatever the trusted proxies and networks, `isTrustedProxy` answers false
on the nil sender IP, the result of parsing a text that is no address such as
`not-an-ip`; the function is total, so it does not fail. -/
theorem isTrustedProxy_absent_sender (opts : ForwardedHeadersOptions) :
    isTrustedProxy opts IP.nil = false ∧
      isTrustedProxy opts (ParseIP "not-an-ip") = false := by
  have h : ParseIP "not-an-ip" = IP.nil := by decide
  rw [h]
  exact ⟨isTrustedProxy_nil_eq_false opts, isTrustedProxy_nil_eq_false opts⟩

/-- C4. The options of `NewForwardedHeadersOptions` have `ForwardLimit` 1, the one
trusted proxy 127.0.0.1 and no trusted network; on them `isTrustedProxy` is true
exactly of 127.0.0.1 (in its 4-byte or its 16-byte form), and 127.0.1.2 is not
trusted. -/
theorem NewForwardedHeadersOptions_defaults :
    NewForwardedHeadersOptions.ForwardLimit = 1 ∧
      NewForwardedHeadersOptions.TrustedProxies = [IPv4 127 0 0 1] ∧
      IPv4 127 0 0 1 = ParseIP "127.0.0.1" ∧
      NewForwardedHeadersOptions.TrustedNetworks = [] ∧
      (∀ ip : IP, isTrustedProxy NewForwardedHeadersOptions ip = true ↔
        ip = IP.bytes [127, 0, 0, 1] ∨ ip = IPv4 127 0 0 1) ∧
      isTrustedProxy NewForwardedHeadersOptions (ParseIP "127.0.1.2") = false :=
  ⟨rfl, rfl, by decide, rfl, isTrustedProxy_default_iff, by decide⟩

/-- C5, evaluated on the code: `*` is no IP address for `net.ParseIP`, so
`AddTrustedProxy "*"` returns the options as they are, and after
`NewForwardedHeadersOptions().ClearTrustedProxies().AddTrustedProxy("*")` the
valid address 127.0.1.2 is not trusted. -/
theorem AddTrustedProxy_wildcard_not_trusted :
    ParseIP "*" = IP.nil ∧
      (∀ opts : ForwardedHeadersOptions, AddTrustedProxy opts "*" = opts) ∧
      ParseIP "127.0.1.2" ≠ IP.nil ∧
      isTrustedProxy (AddTrustedProxy (ClearTrustedProxies NewForwardedHeadersOptions) "*")
        (ParseIP "127.0.1.2") = false :=
  ⟨by decide, fun opts => AddTrustedProxy_of_nil opts "*" (by decide), by decide, by decide⟩

/-- C6 as stated fails: `WithForwardLimit(-1)` on the default options changes
`ForwardLimit` from 1 to -1. -/
theorem WithForwardLimit_negative_not_noop :
    (-1 : Int) < 0 ∧
      (WithForwardLimit NewForwardedHeadersOptions (-1)).ForwardLimit ≠
        NewForwardedHeadersOptions.ForwardLimit := by
  decide

/-- C6, amended. For every options value and every integer `n < 0`,
`WithForwardLimit n` stores `n`: `ForwardLimit` after the call equals `n`, and it
equals `ForwardLimit` before the call only when that was `n` already. -/
theorem WithForwardLimit_negative_stored (opts : ForwardedHeadersOptions) (n : Int)
    (h : n < 0) :
    (WithForwardLimit opts n).ForwardLimit = n ∧
      (WithForwardLimit opts n).ForwardLimit < 0 ∧
      ((WithForwardLimit opts n).ForwardLimit = opts.ForwardLimit ↔ opts.ForwardLimit = n) := by
  refine ⟨rfl, h, ?_⟩
  show n = opts.ForwardLimit ↔ opts.ForwardLimit = n
  exact eq_comm

/-- C6, amended, at the default options and `n = -1`. -/
theorem WithForwardLimit_negative_stored_witness :
    (-1 : Int) < 0 ∧
      ((WithForwardLimit NewForwardedHeadersOptions (-1)).ForwardLimit = -1 ∧
        (WithForwardLimit NewForwardedHeadersOptions (-1)).ForwardLimit < 0 ∧
        ((WithForwardLimit NewForwardedHeadersOptions (-1)).ForwardLimit =
            NewForwardedHeadersOptions.ForwardLimit ↔
          NewForwardedHeadersOptions.ForwardLimit = -1)) :=
  ⟨by decide, WithForwardLimit_negative_stored NewForwardedHeadersOptions (-1) (by decide)⟩

/-- C7. For a text that is neither a parseable IP address nor the wildcard token
`*`, `AddTrustedProxy` is a no-op: the options come back as they were, with
`ForwardLimit`, `TrustedProxies` and `TrustedNetworks` unchanged; the function is
total, so no error is raised. -/
theorem AddTrustedProxy_unparseable_noop (opts : ForwardedHeadersOptions) (text : String)
    (h : ParseIP text = IP.nil) (_hw : text ≠ "*") :
    AddTrustedProxy opts text = opts ∧
      (AddTrustedProxy opts text).ForwardLimit = opts.ForwardLimit ∧
      (AddTrustedProxy opts text).TrustedProxies = opts.TrustedProxies ∧
      (AddTrustedProxy opts text).TrustedNetworks = opts.TrustedNetworks := by
  rw [AddTrustedProxy_of_nil opts text h]
  exact ⟨rfl, rfl, rfl, rfl⟩

/-- C7 at the default options and the texts `not-an-ip`, the empty text and
`10.0.0.0/8`. -/
theorem AddTrustedProxy_unparseable_noop_witness :
    (ParseIP "not-an-ip" = IP.nil ∧ ParseIP "" = IP.nil ∧ ParseIP "10.0.0.0/8" = IP.nil) ∧
      AddTrustedProxy NewForwardedHeadersOptions "not-an-ip" = NewForwardedHeadersOptions ∧
      AddTrustedProxy NewForwardedHeadersOptions "" = NewForwardedHeadersOptions ∧
      AddTrustedProxy NewForwardedHeadersOptions "10.0.0.0/8" = NewForwardedHeadersOptions :=
  ⟨⟨by decide, by decide, by decide⟩,
    (AddTrustedProxy_unparseable_noop NewForwardedHeadersOptions "not-an-ip"
      (by decide) (by decide)).1,
    (AddTrustedProxy_unparseable_noop NewForwardedHeadersOptions "" (by decide) (by decide)).1,
    (AddTrustedProxy_unparseable_noop NewForwardedHeadersOptions "10.0.0.0/8"
      (by decide) (by decide)).1⟩

/-- C8. For a text that does not parse as a CIDR, `AddTrustedNetwork` is a no-op:
the options come back as they were, with `ForwardLimit`, `TrustedProxies` and
`TrustedNetworks` unchanged; the function is total, so no error is raised. -/
theorem AddTrustedNetwork_unparseable_noop (opts : ForwardedHeadersOptions) (text : String)
    (h : ParseCIDR text = none) :
    AddTrustedNetwork opts text = opts ∧
      (AddTrustedNetwork opts text).ForwardLimit = opts.ForwardLimit ∧
      (AddTrustedNetwork opts text).TrustedProxies = opts.TrustedProxies ∧
      (AddTrustedNetwork opts text).TrustedNetworks = opts.TrustedNetworks := by
  rw [AddTrustedNetwork_of_none opts text h]
  exact ⟨rfl, rfl, rfl, rfl⟩

/-- C8 at the default options and the texts `127.0.1.2` (no prefix length), the
empty text and `127.0.1.0/33`. -/
theorem AddTrustedNetwork_unparseable_noop_witness :
    (ParseCIDR "127.0.1.2" = none ∧ ParseCIDR "" = none ∧ ParseCIDR "127.0.1.0/33" = none) ∧
      AddTrustedNetwork NewForwardedHeadersOptions "127.0.1.2" = NewForwardedHeadersOptions ∧
      AddTrustedNetwork NewForwardedHeadersOptions "" = NewForwardedHeadersOptions ∧
      AddTrustedNetwork NewForwardedHeadersOptions "127.0.1.0/33" =
        NewForwardedHeadersOptions :=
  ⟨⟨by decide, by decide, by decide⟩,
    (AddTrustedNetwork_unparseable_noop NewForwardedHeadersOptions "127.0.1.2" (by decide)).1,
    (AddTrustedNetwork_unparseable_noop NewForwardedHeadersOptions "" (by decide)).1,
    (AddTrustedNetwork_unparseable_noop NewForwardedHeadersOptions "127.0.1.0/33"
      (by decide)).1⟩

/-- C9. When the text parses to the IP address `a`, `a` is trusted after
`AddTrustedProxy text`, from any options and so also from options whose
exact-address list was cleared first. -/
theorem AddTrustedProxy_trusts_parsed (opts : ForwardedHeadersOptions) (text : String)
    (a : IP) (h : ParseIP text = a) (ha : a ≠ IP.nil) :
    isTrustedProxy (AddTrustedProxy opts text) a = true ∧
      isTrustedProxy (AddTrustedProxy (ClearTrustedProxies opts) text) a = true := by
  subst h
  have key : ∀ o : ForwardedHeadersOptions,
      isTrustedProxy (AddTrustedProxy o text) (ParseIP text) = true := by
    intro o
    rw [AddTrustedProxy_of_ne_nil o text ha, isTrustedProxy_eq_true_iff]
    refine ⟨ha, Or.inl ⟨ParseIP text, ?_, IP.Equal_self _⟩⟩
    simp
  exact ⟨key opts, key (ClearTrustedProxies opts)⟩

/-- C9 at `NewForwardedHeadersOptions().ClearTrustedProxies().AddTrustedProxy("127.0.1.2")`
and the address 127.0.1.2. -/
theorem AddTrustedProxy_trusts_parsed_witness :
    (ParseIP "127.0.1.2" = IPv4 127 0 1 2 ∧ IPv4 127 0 1 2 ≠ IP.nil) ∧
      isTrustedProxy (AddTrustedProxy NewForwardedHeadersOptions "127.0.1.2")
        (IPv4 127 0 1 2) = true ∧
      isTrustedProxy
        (AddTrustedProxy (ClearTrustedProxies NewForwardedHeadersOptions) "127.0.1.2")
        (IPv4 127 0 1 2) = true :=
  ⟨⟨by decide, by decide⟩,
    AddTrustedProxy_trusts_parsed NewForwardedHeadersOptions "127.0.1.2" (IPv4 127 0 1 2)
      (by decide) (by decide)⟩

/-- C10. When the text parses as a CIDR, every IP address that the parsed network
contains is trusted after `AddTrustedNetwork text`. -/
theorem AddTrustedNetwork_trusts_contained (opts : ForwardedHeadersOptions) (text : String)
    (ip : IP) (n : IPNet) (b : IP) (h : ParseCIDR text = some (ip, n))
    (hb : n.Contains b = true) :
    isTrustedProxy (AddTrustedNetwork opts text) b = true := by
  have hne : b ≠ IP.nil := by
    intro e
    subst e
    rw [Contains_nil_of_wellFormed n (ParseCIDR_wellFormed text ip n h)] at hb
    exact Bool.noConfusion hb
  rw [AddTrustedNetwork_of_some opts text ip n h, isTrustedProxy_eq_true_iff]
  exact ⟨hne, Or.inr ⟨n, by simp, hb⟩⟩

/-- C10 at `NewForwardedHeadersOptions().ClearTrustedNetworks().AddTrustedNetwork("127.0.1.0/24")`
and the address 127.0.1.2. -/
theorem AddTrustedNetwork_trusts_contained_witness :
    (ParseCIDR "127.0.1.0/24" =
        some (IPv4 127 0 1 0, { IP := IP.bytes [127, 0, 1, 0], Mask := [255, 255, 255, 0] }) ∧
      IPNet.Contains { IP := IP.bytes [127, 0, 1, 0], Mask := [255, 255, 255, 0] }
        (ParseIP "127.0.1.2") = true) ∧
      isTrustedProxy
        (AddTrustedNetwork (ClearTrustedNetworks NewForwardedHeadersOptions) "127.0.1.0/24")
        (ParseIP "127.0.1.2") = true :=
  ⟨⟨by decide, by decide⟩,
    AddTrustedNetwork_trusts_contained (ClearTrustedNetworks NewForwardedHeadersOptions)
      "127.0.1.0/24" (IPv4 127 0 1 0)
      { IP := IP.bytes [127, 0, 1, 0], Mask := [255, 255, 255, 0] } (ParseIP "127.0.1.2")
      (by decide) (by decide)⟩

/-- C11 as stated fails at the nil address when a network is malformed: the
network with nil number and no mask contains the nil address (`IPNet.Contains`
compares no byte), and `isTrustedProxy` does not trust the nil address. -/
theorem ClearTrustedProxies_nil_not_trusted :
    IPNet.Contains { IP := IP.nil, Mask := [] } IP.nil = true ∧
      isTrustedProxy
        (ClearTrustedProxies
          { ForwardLimit := 1, TrustedProxies := [IPv4 127 0 0 1],
            TrustedNetworks := [{ IP := IP.nil, Mask := [] }] }) IP.nil = false ∧
      ¬ (isTrustedProxy
          (ClearTrustedProxies
            { ForwardLimit := 1, TrustedProxies := [IPv4 127 0 0 1],
              TrustedNetworks := [{ IP := IP.nil, Mask := [] }] }) IP.nil = true ↔
        ∃ tnet ∈ [({ IP := IP.nil, Mask := [] } : IPNet)], tnet.Contains IP.nil = true) := by
  refine ⟨by decide, by decide, ?_⟩
  intro h
  have hex : ∃ tnet ∈ [({ IP := IP.nil, Mask := [] } : IPNet)], tnet.Contains IP.nil = true :=
    ⟨_, List.mem_singleton.mpr rfl, by decide⟩
  have ht := h.mpr hex
  revert ht
  decide

/-- C11, amended. `ClearTrustedProxies` leaves the exact-address list empty and
`ForwardLimit` and `TrustedNetworks` as they were; afterwards an address that is
valid (non-nil), or any address when the networks are well formed, as every
network that `AddTrustedNetwork` appends is, is trusted exactly when some network
of `TrustedNetworks` contains it, so with no trusted networks no address at all is
trusted. -/
theorem ClearTrustedProxies_effect (opts : ForwardedHeadersOptions) (ip : IP)
    (h : ip ≠ IP.nil ∨ ∀ n ∈ opts.TrustedNetworks, n.WellFormed) :
    (ClearTrustedProxies opts).TrustedProxies = [] ∧
      (ClearTrustedProxies opts).ForwardLimit = opts.ForwardLimit ∧
      (ClearTrustedProxies opts).TrustedNetworks = opts.TrustedNetworks ∧
      (isTrustedProxy (ClearTrustedProxies opts) ip = true ↔
        ∃ tnet ∈ opts.TrustedNetworks, tnet.Contains ip = true) ∧
      (opts.TrustedNetworks = [] →
        ∀ x : IP, isTrustedProxy (ClearTrustedProxies opts) x = false) := by
  refine ⟨rfl, rfl, rfl, ?_, ?_⟩
  · rw [isTrustedProxy_of_no_proxies (ClearTrustedProxies opts) ip rfl]
    show (ip ≠ IP.nil ∧ ∃ tnet ∈ opts.TrustedNetworks, tnet.Contains ip = true) ↔ _
    constructor
    · exact fun hh => hh.2
    · intro hh
      refine ⟨?_, hh⟩
      rcases h with h | h
      · exact h
      · intro e
        subst e
        obtain ⟨tnet, hmem, hc⟩ := hh
        rw [Contains_nil_of_wellFormed tnet (h tnet hmem)] at hc
        exact Bool.noConfusion hc
  · intro hn x
    have hx := isTrustedProxy_of_no_proxies (ClearTrustedProxies opts) x rfl
    have hn2 : (ClearTrustedProxies opts).TrustedNetworks = [] := hn
    rw [hn2] at hx
    cases hv : isTrustedProxy (ClearTrustedProxies opts) x with
    | false => rfl
    | true => simp [hv] at hx

/-- C11, amended, at the default options with the network 127.0.1.0/24 added: after
`ClearTrustedProxies` the address 127.0.0.1 is trusted no more, and 127.0.1.2 is
trusted, through the network. -/
theorem ClearTrustedProxies_effect_witness :
    (ParseIP "127.0.1.2" ≠ IP.nil ∨
        ∀ n ∈ (AddTrustedNetwork NewForwardedHeadersOptions "127.0.1.0/24").TrustedNetworks,
          n.WellFormed) ∧
      (isTrustedProxy (AddTrustedNetwork NewForwardedHeadersOptions "127.0.1.0/24")
          (IPv4 127 0 0 1) = true ∧
        isTrustedProxy
          (ClearTrustedProxies (AddTrustedNetwork NewForwardedHeadersOptions "127.0.1.0/24"))
          (IPv4 127 0 0 1) = false ∧
        isTrustedProxy
          (ClearTrustedProxies (AddTrustedNetwork NewForwardedHeadersOptions "127.0.1.0/24"))
          (ParseIP "127.0.1.2") = true) ∧
      (isTrustedProxy
          (ClearTrustedProxies (AddTrustedNetwork NewForwardedHeadersOptions "127.0.1.0/24"))
          (ParseIP "127.0.1.2") = true ↔
        ∃ tnet ∈ (AddTrustedNetwork NewForwardedHeadersOptions "127.0.1.0/24").TrustedNetworks,
          tnet.Contains (ParseIP "127.0.1.2") = true) :=
  ⟨Or.inl (by decide), ⟨by decide, by decide, by decide⟩,
    (ClearTrustedProxies_effect (AddTrustedNetwork NewForwardedHeadersOptions "127.0.1.0/24")
      (ParseIP "127.0.1.2") (Or.inl (by decide))).2.2.2.1⟩

/-- C12 as stated fails at the nil address when a proxy entry is nil: the nil entry
equals the nil address under `IP.Equal` (equal lengths, equal bytes), and
`isTrustedProxy` does not trust the nil address. -/
theorem ClearTrustedNetworks_nil_not_trusted :
    IP.Equal IP.nil IP.nil = true ∧
      isTrustedProxy
        (ClearTrustedNetworks
          { ForwardLimit := 1, TrustedProxies := [IP.nil],
            TrustedNetworks := [{ IP := IP.bytes [127, 0, 1, 0], Mask := [255, 255, 255, 0] }] })
        IP.nil = false ∧
      ¬ (isTrustedProxy
          (ClearTrustedNetworks
            { ForwardLimit := 1, TrustedProxies := [IP.nil],
              TrustedNetworks :=
                [{ IP := IP.bytes [127, 0, 1, 0], Mask := [255, 255, 255, 0] }] })
          IP.nil = true ↔
        ∃ tip ∈ [IP.nil], tip.Equal IP.nil = true) := by
  refine ⟨by decide, by decide, ?_⟩
  intro h
  have hex : ∃ tip ∈ [IP.nil], tip.Equal IP.nil = true :=
    ⟨_, List.mem_singleton.mpr rfl, by decide⟩
  have ht := h.mpr hex
  revert ht
  decide

/-- C12, amended. `ClearTrustedNetworks` leaves the CIDR list empty and
`ForwardLimit` and `TrustedProxies` as they were; afterwards an address that is
valid (non-nil), or any address when every entry of `TrustedProxies` holds bytes,
as the default entry and every entry that `AddTrustedProxy` appends do, is trusted
exactly when it equals some entry of `TrustedProxies`. -/
theorem ClearTrustedNetworks_effect (opts : ForwardedHeadersOptions) (ip : IP)
    (h : ip ≠ IP.nil ∨ ∀ tip ∈ opts.TrustedProxies, tip.len ≠ 0) :
    (ClearTrustedNetworks opts).TrustedNetworks = [] ∧
      (ClearTrustedNetworks opts).ForwardLimit = opts.ForwardLimit ∧
      (ClearTrustedNetworks opts).TrustedProxies = opts.TrustedProxies ∧
      (isTrustedProxy (ClearTrustedNetworks opts) ip = true ↔
        ∃ tip ∈ opts.TrustedProxies, tip.Equal ip = true) := by
  refine ⟨rfl, rfl, rfl, ?_⟩
  rw [isTrustedProxy_of_no_networks (ClearTrustedNetworks opts) ip rfl]
  show (ip ≠ IP.nil ∧ ∃ tip ∈ opts.TrustedProxies, tip.Equal ip = true) ↔ _
  constructor
  · exact fun hh => hh.2
  · intro hh
    refine ⟨?_, hh⟩
    rcases h with h | h
    · exact h
    · intro e
      subst e
      obtain ⟨tip, hmem, hc⟩ := hh
      rw [Equal_nil_of_len_ne_zero tip (h tip hmem)] at hc
      exact Bool.noConfusion hc

/-- C12, amended, at the default options with the network 127.0.1.0/24 added: after
`ClearTrustedNetworks` the address 127.0.1.2 is trusted no more, and 127.0.0.1, in
its 4-byte form, still is, through the exact-address list. -/
theorem ClearTrustedNetworks_effect_witness :
    (IP.bytes [127, 0, 0, 1] ≠ IP.nil ∨
        ∀ tip ∈ (AddTrustedNetwork NewForwardedHeadersOptions "127.0.1.0/24").TrustedProxies,
          tip.len ≠ 0) ∧
      ((AddTrustedNetwork NewForwardedHeadersOptions "127.0.1.0/24").TrustedNetworks ≠ [] ∧
        isTrustedProxy (AddTrustedNetwork NewForwardedHeadersOptions "127.0.1.0/24")
          (ParseIP "127.0.1.2") = true ∧
        isTrustedProxy
          (ClearTrustedNetworks (AddTrustedNetwork NewForwardedHeadersOptions "127.0.1.0/24"))
          (ParseIP "127.0.1.2") = false ∧
        isTrustedProxy
          (ClearTrustedNetworks (AddTrustedNetwork NewForwardedHeadersOptions "127.0.1.0/24"))
          (IP.bytes [127, 0, 0, 1]) = true) ∧
      ((ClearTrustedNetworks
            (AddTrustedNetwork NewForwardedHeadersOptions "127.0.1.0/24")).TrustedNetworks
          = [] ∧
        (ClearTrustedNetworks
            (AddTrustedNetwork NewForwardedHeadersOptions "127.0.1.0/24")).ForwardLimit =
          (AddTrustedNetwork NewForwardedHeadersOptions "127.0.1.0/24").ForwardLimit ∧
        (ClearTrustedNetworks
            (AddTrustedNetwork NewForwardedHeadersOptions "127.0.1.0/24")).TrustedProxies =
          (AddTrustedNetwork NewForwardedHeadersOptions "127.0.1.0/24").TrustedProxies ∧
        (isTrustedProxy
            (ClearTrustedNetworks (AddTrustedNetwork NewForwardedHeadersOptions "127.0.1.0/24"))
            (IP.bytes [127, 0, 0, 1]) = true ↔
          ∃ tip ∈ (AddTrustedNetwork NewForwardedHeadersOptions "127.0.1.0/24").TrustedProxies,
            tip.Equal (IP.bytes [127, 0, 0, 1]) = true)) :=
  ⟨Or.inl (by decide), ⟨by decide, by decide, by decide, by decide⟩,
    ClearTrustedNetworks_effect (AddTrustedNetwork NewForwardedHeadersOptions "127.0.1.0/24")
      (IP.bytes [127, 0, 0, 1]) (Or.inl (by decide))⟩

/-- C13. For `n ≥ 0`, `WithForwardLimit n` sets `ForwardLimit` to `n` and changes
nothing else: `TrustedProxies` and `TrustedNetworks` are as before, and
`isTrustedProxy` answers the same for every IP before and after the call. -/
theorem WithForwardLimit_sets_limit_only (opts : ForwardedHeadersOptions) (n : Int)
    (ip : IP) (h : 0 ≤ n) :
    (WithForwardLimit opts n).ForwardLimit = n ∧
      0 ≤ (WithForwardLimit opts n).ForwardLimit ∧
      (WithForwardLimit opts n).TrustedProxies = opts.TrustedProxies ∧
      (WithForwardLimit opts n).TrustedNetworks = opts.TrustedNetworks ∧
      isTrustedProxy (WithForwardLimit opts n) ip = isTrustedProxy opts ip :=
  ⟨rfl, h, rfl, rfl, rfl⟩

/-- C13 at `NewForwardedHeadersOptions().WithForwardLimit(3)` and the address
127.0.0.1. -/
theorem WithForwardLimit_sets_limit_only_witness :
    (0 : Int) ≤ 3 ∧
      ((WithForwardLimit NewForwardedHeadersOptions 3).ForwardLimit = 3 ∧
        0 ≤ (WithForwardLimit NewForwardedHeadersOptions 3).ForwardLimit ∧
        (WithForwardLimit NewForwardedHeadersOptions 3).TrustedProxies =
          NewForwardedHeadersOptions.TrustedProxies ∧
        (WithForwardLimit NewForwardedHeadersOptions 3).TrustedNetworks =
          NewForwardedHeadersOptions.TrustedNetworks ∧
        isTrustedProxy (WithForwardLimit NewForwardedHeadersOptions 3) (IPv4 127 0 0 1) =
          isTrustedProxy NewForwardedHeadersOptions (IPv4 127 0 0 1)) :=
  ⟨by decide,
    WithForwardLimit_sets_limit_only NewForwardedHeadersOptions 3 (IPv4 127 0 0 1)
      (by decide)⟩

/-- C14. For a trusted direct peer, a forward limit `N ≥ 1` and an
`X-Forwarded-For` header whose chain holds `k ≥ N` entries, all well formed, the
resolved address is the `N`-th entry counted from the right end of the header,
with the synthetic port; the trust lists matter only in that they trust the
peer, so this holds under the default lists, which trust 127.0.0.1 alone. -/
theorem resolve_nth_from_right (opts : ForwardedHeadersOptions) (peer : PeerAddress)
    (header : String) (xri : Option String) (chain : List IP) (N : Nat)
    (hpeer : isTrustedProxy opts peer.ip = true)
    (hlim : opts.ForwardLimit = (N : Int)) (hN : 1 ≤ N)
    (hchain : forwardedChain (some header) xri = chain)
    (hwf : ∀ e ∈ chain, e ≠ IP.nil) (hk : N ≤ chain.length) :
    ∃ a, chain.reverse[N - 1]? = some a ∧
      resolve opts peer (some header) xri = { ip := a, port := syntheticPort } := by
  have hwf2 : ∀ e ∈ chain.reverse, e ≠ IP.nil := fun e he => hwf e (List.mem_reverse.mp he)
  have hidx := walk_nth opts N hlim hN chain.reverse 0 IP.nil hwf2 (by omega)
    (by simp only [List.length_reverse]; omega)
  simp only [Nat.sub_zero] at hidx
  refine ⟨walk opts chain.reverse 0 IP.nil, hidx, ?_⟩
  have hmem : walk opts chain.reverse 0 IP.nil ∈ chain.reverse :=
    List.getElem?_mem hidx
  exact resolve_of_walk opts peer (some header) xri _ hpeer (by rw [hchain])
    (hwf2 _ hmem)

/-- C14 at the default trust lists and the peer 127.0.0.1:111: the header
`100.100.100.100, 10.0.1.1, 10.1.1.3` with limit 3 and the header
`10.0.1.1, 100.100.100.100, 10.1.1.3` with limit 2 both resolve to
100.100.100.100, although 10.1.1.3 and 10.0.1.1 are not trusted. -/
theorem resolve_nth_from_right_witness :
    (isTrustedProxy NewForwardedHeadersOptions (ParseIP "127.0.0.1") = true ∧
      isTrustedProxy NewForwardedHeadersOptions (ParseIP "10.1.1.3") = false ∧
      isTrustedProxy NewForwardedHeadersOptions (ParseIP "10.0.1.1") = false) ∧
      (resolve (WithForwardLimit NewForwardedHeadersOptions 3)
          { ip := ParseIP "127.0.0.1", port := "111" }
          (some "100.100.100.100, 10.0.1.1, 10.1.1.3") none =
        { ip := ParseIP "100.100.100.100", port := "0" } ∧
      resolve (WithForwardLimit NewForwardedHeadersOptions 2)
          { ip := ParseIP "127.0.0.1", port := "111" }
          (some "10.0.1.1, 100.100.100.100, 10.1.1.3") none =
        { ip := ParseIP "100.100.100.100", port := "0" }) ∧
      (∃ a, [IPv4 100 100 100 100, IPv4 10 0 1 1, IPv4 10 1 1 3].reverse[3 - 1]? = some a ∧
        resolve (WithForwardLimit NewForwardedHeadersOptions 3)
            { ip := ParseIP "127.0.0.1", port := "111" }
            (some "100.100.100.100, 10.0.1.1, 10.1.1.3") none =
          { ip := a, port := syntheticPort }) ∧
      (∃ a, [IPv4 10 0 1 1, IPv4 100 100 100 100, IPv4 10 1 1 3].reverse[2 - 1]? = some a ∧
        resolve (WithForwardLimit NewForwardedHeadersOptions 2)
            { ip := ParseIP "127.0.0.1", port := "111" }
            (some "10.0.1.1, 100.100.100.100, 10.1.1.3") none =
          { ip := a, port := syntheticPort }) :=
  ⟨by decide, by decide,
    resolve_nth_from_right (WithForwardLimit NewForwardedHeadersOptions 3)
      { ip := ParseIP "127.0.0.1", port := "111" } "100.100.100.100, 10.0.1.1, 10.1.1.3"
      none [IPv4 100 100 100 100, IPv4 10 0 1 1, IPv4 10 1 1 3] 3
      (by decide) (by decide) (by decide) (by decide) (by decide) (by decide),
    resolve_nth_from_right (WithForwardLimit NewForwardedHeadersOptions 2)
      { ip := ParseIP "127.0.0.1", port := "111" } "10.0.1.1, 100.100.100.100, 10.1.1.3"
      none [IPv4 10 0 1 1, IPv4 100 100 100 100, IPv4 10 1 1 3] 2
      (by decide) (by decide) (by decide) (by decide) (by decide) (by decide)⟩

/-- C15 as stated fails: with the default trust lists, limit 3, the trusted peer
127.0.0.1 and the header `100.100.100.100, 10.0.1.1, 10.1.1.3` of
`TestXForwardForMultipleIP`, the entry 10.1.1.3 is not trusted, and yet the
resolved address is 100.100.100.100, an entry to its left: it is neither the
peer's address nor 10.1.1.3. -/
theorem resolve_left_of_untrusted_hop :
    isTrustedProxy (WithForwardLimit NewForwardedHeadersOptions 3) (ParseIP "127.0.0.1")
        = true ∧
      forwardedChain (some "100.100.100.100, 10.0.1.1, 10.1.1.3") none =
        [IPv4 100 100 100 100, IPv4 10 0 1 1] ++ IPv4 10 1 1 3 :: [] ∧
      isTrustedProxy (WithForwardLimit NewForwardedHeadersOptions 3) (IPv4 10 1 1 3)
        = false ∧
      (resolve (WithForwardLimit NewForwardedHeadersOptions 3)
          { ip := ParseIP "127.0.0.1", port := "111" }
          (some "100.100.100.100, 10.0.1.1, 10.1.1.3") none).ip = IPv4 100 100 100 100 ∧
      IPv4 100 100 100 100 ≠ ParseIP "127.0.0.1" ∧
      IPv4 100 100 100 100 ∉ IPv4 10 1 1 3 :: [] ∧
      IPv4 100 100 100 100 ∈ [IPv4 100 100 100 100, IPv4 10 0 1 1] := by
  decide

/-- C15, amended. For every forward limit the walk is gated by `isTrustedProxy` at
the direct peer only: a header entry is consumed only if the direct peer is
trusted, and two options values with the same `ForwardLimit` that agree on the
trust of the direct peer resolve every request alike, whatever they say of the
entries of the chain; so the resolved address depends on the trust lists only
through the trust of the direct peer. -/
theorem resolve_gated_by_peer_only (opts opts2 : ForwardedHeadersOptions)
    (peer : PeerAddress) (xff xri : Option String)
    (hlim : opts2.ForwardLimit = opts.ForwardLimit)
    (hpeer : isTrustedProxy opts2 peer.ip = isTrustedProxy opts peer.ip) :
    resolve opts2 peer xff xri = resolve opts peer xff xri ∧
      (resolve opts peer xff xri = peer ∨ isTrustedProxy opts peer.ip = true) := by
  constructor
  · unfold resolve
    rw [hpeer, walk_congr opts opts2 hlim]
  · cases ht : isTrustedProxy opts peer.ip with
    | true => exact Or.inr rfl
    | false =>
      left
      simp [resolve, ht]

/-- C15, amended, at limit 3, the peer 127.0.0.1 and the header
`100.100.100.100, 10.0.1.1, 10.1.1.3`: the default trust lists, which trust
neither 10.1.1.3 nor 10.0.1.1, and the lists that trust both in addition resolve
the request alike, to 100.100.100.100. -/
theorem resolve_gated_by_peer_only_witness :
    ((AddTrustedProxy (AddTrustedProxy (WithForwardLimit NewForwardedHeadersOptions 3)
          "10.1.1.3") "10.0.1.1").ForwardLimit =
        (WithForwardLimit NewForwardedHeadersOptions 3).ForwardLimit ∧
      isTrustedProxy (AddTrustedProxy (AddTrustedProxy
          (WithForwardLimit NewForwardedHeadersOptions 3) "10.1.1.3") "10.0.1.1")
          (ParseIP "127.0.0.1") =
        isTrustedProxy (WithForwardLimit NewForwardedHeadersOptions 3)
          (ParseIP "127.0.0.1")) ∧
      (isTrustedProxy (WithForwardLimit NewForwardedHeadersOptions 3) (ParseIP "10.1.1.3")
          = false ∧
        isTrustedProxy (AddTrustedProxy (AddTrustedProxy
          (WithForwardLimit NewForwardedHeadersOptions 3) "10.1.1.3") "10.0.1.1")
          (ParseIP "10.1.1.3") = true) ∧
      resolve (WithForwardLimit NewForwardedHeadersOptions 3)
          { ip := ParseIP "127.0.0.1", port := "111" }
          (some "100.100.100.100, 10.0.1.1, 10.1.1.3") none =
        { ip := ParseIP "100.100.100.100", port := "0" } ∧
      resolve (AddTrustedProxy (AddTrustedProxy
            (WithForwardLimit NewForwardedHeadersOptions 3) "10.1.1.3") "10.0.1.1")
          { ip := ParseIP "127.0.0.1", port := "111" }
          (some "100.100.100.100, 10.0.1.1, 10.1.1.3") none =
        resolve (WithForwardLimit NewForwardedHeadersOptions 3)
          { ip := ParseIP "127.0.0.1", port := "111" }
          (some "100.100.100.100, 10.0.1.1, 10.1.1.3") none :=
  ⟨⟨by decide, by decide⟩, ⟨by decide, by decide⟩, by decide,
    (resolve_gated_by_peer_only (WithForwardLimit NewForwardedHeadersOptions 3)
      (AddTrustedProxy (AddTrustedProxy (WithForwardLimit NewForwardedHeadersOptions 3)
        "10.1.1.3") "10.0.1.1")
      { ip := ParseIP "127.0.0.1", port := "111" }
      (some "100.100.100.100, 10.0.1.1, 10.1.1.3") none (by decide) (by decide)).1⟩

/-- C16. `AddTrustedProxy` grants trust to exactly one address: when the text
parses to the IP address `a`, an address `b` is trusted after the call exactly
when it was trusted before or `b` equals `a`; `ForwardLimit` and
`TrustedNetworks` are unchanged. -/
theorem AddTrustedProxy_trusts_exactly (opts : ForwardedHeadersOptions) (text : String)
    (a b : IP) (h : ParseIP text = a) (ha : a ≠ IP.nil) :
    (isTrustedProxy (AddTrustedProxy opts text) b = true ↔
        isTrustedProxy opts b = true ∨ b.Equal a = true) ∧
      (AddTrustedProxy opts text).ForwardLimit = opts.ForwardLimit ∧
      (AddTrustedProxy opts text).TrustedNetworks = opts.TrustedNetworks := by
  subst h
  refine ⟨?_, AddTrustedProxy_ForwardLimit opts text, AddTrustedProxy_TrustedNetworks opts text⟩
  rw [IP.Equal_comm b (ParseIP text), isTrustedProxy_eq_true_iff, isTrustedProxy_eq_true_iff,
    AddTrustedProxy_TrustedNetworks, AddTrustedProxy_TrustedProxies]
  simp only [ha, if_false, List.mem_append, List.mem_singleton]
  by_cases hb : b = IP.nil
  · subst hb
    have hlen : (ParseIP text).len = IPv6len := by
      rcases ParseIP_nil_or_len text with e | e
      · exact absurd e ha
      · exact e
    simp [Equal_nil_of_len (ParseIP text) hlen]
  · constructor
    · rintro ⟨-, (⟨tip, (hm | hm), he⟩ | hn)⟩
      · exact Or.inl ⟨hb, Or.inl ⟨tip, hm, he⟩⟩
      · subst hm
        exact Or.inr he
      · exact Or.inl ⟨hb, Or.inr hn⟩
    · rintro (⟨-, (⟨tip, hm, he⟩ | hn)⟩ | he)
      · exact ⟨hb, Or.inl ⟨tip, Or.inl hm, he⟩⟩
      · exact ⟨hb, Or.inr hn⟩
      · exact ⟨hb, Or.inl ⟨ParseIP text, Or.inr rfl, he⟩⟩

/-- C16 at `ClearTrustedProxies().AddTrustedProxy("127.0.1.2")` on the default
options and the 4-byte form of 127.0.1.2. -/
theorem AddTrustedProxy_trusts_exactly_witness :
    (ParseIP "127.0.1.2" = IPv4 127 0 1 2 ∧ IPv4 127 0 1 2 ≠ IP.nil) ∧
      (isTrustedProxy
          (AddTrustedProxy (ClearTrustedProxies NewForwardedHeadersOptions) "127.0.1.2")
          (IP.bytes [127, 0, 1, 2]) = true ↔
        isTrustedProxy (ClearTrustedProxies NewForwardedHeadersOptions)
            (IP.bytes [127, 0, 1, 2]) = true ∨
          (IP.bytes [127, 0, 1, 2]).Equal (IPv4 127 0 1 2) = true) :=
  ⟨⟨by decide, by decide⟩,
    (AddTrustedProxy_trusts_exactly (ClearTrustedProxies NewForwardedHeadersOptions)
      "127.0.1.2" (IPv4 127 0 1 2) (IP.bytes [127, 0, 1, 2]) (by decide) (by decide)).1⟩

/-- C17. `AddTrustedNetwork` grants trust only inside the network it adds: when the
text parses as a CIDR with network `n`, an address `b` is trusted after the call
exactly when it was trusted before or `n` contains `b`; `ForwardLimit` and
`TrustedProxies` are unchanged. -/
theorem AddTrustedNetwork_trusts_exactly (opts : ForwardedHeadersOptions) (text : String)
    (ip : IP) (n : IPNet) (b : IP) (h : ParseCIDR text = some (ip, n)) :
    (isTrustedProxy (AddTrustedNetwork opts text) b = true ↔
        isTrustedProxy opts b = true ∨ n.Contains b = true) ∧
      (AddTrustedNetwork opts text).ForwardLimit = opts.ForwardLimit ∧
      (AddTrustedNetwork opts text).TrustedProxies = opts.TrustedProxies := by
  refine ⟨?_, AddTrustedNetwork_ForwardLimit opts text,
    AddTrustedNetwork_TrustedProxies opts text⟩
  rw [isTrustedProxy_eq_true_iff, isTrustedProxy_eq_true_iff,
    AddTrustedNetwork_TrustedProxies, AddTrustedNetwork_TrustedNetworks, h]
  simp only [Option.map_some', Option.toList_some, List.mem_append, List.mem_singleton]
  by_cases hb : b = IP.nil
  · subst hb
    simp [Contains_nil_of_wellFormed n (ParseCIDR_wellFormed text ip n h)]
  · constructor
    · rintro ⟨-, (hp | ⟨tnet, (hm | hm), hc⟩)⟩
      · exact Or.inl ⟨hb, Or.inl hp⟩
      · exact Or.inl ⟨hb, Or.inr ⟨tnet, hm, hc⟩⟩
      · subst hm
        exact Or.inr hc
    · rintro (⟨-, (hp | ⟨tnet, hm, hc⟩)⟩ | hc)
      · exact ⟨hb, Or.inl hp⟩
      · exact ⟨hb, Or.inr ⟨tnet, Or.inl hm, hc⟩⟩
      · exact ⟨hb, Or.inr ⟨n, Or.inr rfl, hc⟩⟩

/-- C17 at `AddTrustedNetwork("127.0.1.0/24")` on the default options: 127.0.1.2
becomes trusted, 127.0.2.2 does not. -/
theorem AddTrustedNetwork_trusts_exactly_witness :
    ParseCIDR "127.0.1.0/24" =
        some (IPv4 127 0 1 0, { IP := IP.bytes [127, 0, 1, 0], Mask := [255, 255, 255, 0] }) ∧
      isTrustedProxy (AddTrustedNetwork NewForwardedHeadersOptions "127.0.1.0/24")
        (ParseIP "127.0.2.2") = false ∧
      (isTrustedProxy (AddTrustedNetwork NewForwardedHeadersOptions "127.0.1.0/24")
          (ParseIP "127.0.1.2") = true ↔
        isTrustedProxy NewForwardedHeadersOptions (ParseIP "127.0.1.2") = true ∨
          IPNet.Contains { IP := IP.bytes [127, 0, 1, 0], Mask := [255, 255, 255, 0] }
            (ParseIP "127.0.1.2") = true) :=
  ⟨by decide, by decide,
    (AddTrustedNetwork_trusts_exactly NewForwardedHeadersOptions "127.0.1.0/24"
      (IPv4 127 0 1 0) { IP := IP.bytes [127, 0, 1, 0], Mask := [255, 255, 255, 0] }
      (ParseIP "127.0.1.2") (by decide)).1⟩

/-- C18. The trust decision does not depend on the order in which entries were
added: for all texts `s` and `t`, parseable or not, and every address `b`,
`isTrustedProxy b` is the same after any two of the calls `AddTrustedProxy s`,
`AddTrustedProxy t`, `AddTrustedNetwork s`, `AddTrustedNetwork t` in one order as
in the other. -/
theorem isTrustedProxy_order_independent (opts : ForwardedHeadersOptions) (s t : String)
    (b : IP) :
    isTrustedProxy (AddTrustedProxy (AddTrustedProxy opts s) t) b =
        isTrustedProxy (AddTrustedProxy (AddTrustedProxy opts t) s) b ∧
      isTrustedProxy (AddTrustedNetwork (AddTrustedNetwork opts s) t) b =
        isTrustedProxy (AddTrustedNetwork (AddTrustedNetwork opts t) s) b ∧
      isTrustedProxy (AddTrustedNetwork (AddTrustedProxy opts s) s) b =
        isTrustedProxy (AddTrustedProxy (AddTrustedNetwork opts s) s) b ∧
      isTrustedProxy (AddTrustedNetwork (AddTrustedProxy opts s) t) b =
        isTrustedProxy (AddTrustedProxy (AddTrustedNetwork opts t) s) b ∧
      isTrustedProxy (AddTrustedNetwork (AddTrustedProxy opts t) s) b =
        isTrustedProxy (AddTrustedProxy (AddTrustedNetwork opts s) t) b ∧
      isTrustedProxy (AddTrustedNetwork (AddTrustedProxy opts t) t) b =
        isTrustedProxy (AddTrustedProxy (AddTrustedNetwork opts t) t) b := by
  have hPP : ∀ x y : String,
      isTrustedProxy (AddTrustedProxy (AddTrustedProxy opts x) y) b =
        isTrustedProxy (AddTrustedProxy (AddTrustedProxy opts y) x) b := by
    intro x y
    apply isTrustedProxy_congr
    · intro z
      simp only [AddTrustedProxy_TrustedProxies, List.mem_append]
      tauto
    · intro z
      simp only [AddTrustedProxy_TrustedNetworks]
  have hNN : ∀ x y : String,
      isTrustedProxy (AddTrustedNetwork (AddTrustedNetwork opts x) y) b =
        isTrustedProxy (AddTrustedNetwork (AddTrustedNetwork opts y) x) b := by
    intro x y
    apply isTrustedProxy_congr
    · intro z
      simp only [AddTrustedNetwork_TrustedProxies]
    · intro z
      simp only [AddTrustedNetwork_TrustedNetworks, List.mem_append]
      tauto
  have hPN : ∀ x y : String,
      isTrustedProxy (AddTrustedNetwork (AddTrustedProxy opts x) y) b =
        isTrustedProxy (AddTrustedProxy (AddTrustedNetwork opts y) x) b := by
    intro x y
    apply isTrustedProxy_congr
    · intro z
      simp only [AddTrustedNetwork_TrustedProxies, AddTrustedProxy_TrustedProxies]
    · intro z
      simp only [AddTrustedNetwork_TrustedNetworks, AddTrustedProxy_TrustedNetworks]
  exact ⟨hPP s t, hNN s t, hPN s s, hPN s t, hPN t s, hPN t t⟩

end Proxy
